import Mathlib

/-!
Verification of the task-iteration engine and ranking engine of the
Agentic_system repository, shallowly embedded in Lean 4.

The embedding follows `src/agents/sub_agents/analyser_v2/agent.py`
(`TodoItem`, `AnalysisResult`, `TodoManager`, `parse_todo_list`, the
driving loop of `AnalyserAgent._run_async_impl`) and `src/utils/db.py`
(`get_files_by_module`, `bm25_search` on top of `rank_bm25.BM25Okapi`).

Modelling conventions:
* Python lists become Lean `List`s, dictionaries become functions over an
  explicit key list, machine floats become `ℝ`.
* The external execution capability (an LLM agent) is not code of this
  repository; following §6 of the specification it is modelled as an
  oracle that, per invocation, either faults or completes having issued a
  (possibly empty) sequence of `save_result` reports.
* The document store is modelled as a list of records, one per row.
-/

/-! ## Progress Tracker (`TodoManager` and friends, agent.py lines 54-123) -/

/-- One TODO item, as in the `TodoItem` dataclass (agent.py lines 54-59). -/
structure TodoItem where
  description : String
  note : String
  processed : Bool
deriving DecidableEq

/-- One analysis outcome, as in the `AnalysisResult` dataclass
(agent.py lines 62-67). -/
structure AnalysisResult where
  file_name : String
  is_target : Bool
  reason : String
deriving DecidableEq

/-- State of the `TodoManager` class (agent.py lines 70-77). -/
structure TodoManager where
  todo_list : List TodoItem
  current_index : ℕ
  results : List AnalysisResult
  user_requirement : String
deriving DecidableEq

/-- `TodoManager.__init__` (agent.py lines 73-77). -/
def TodoManager.init : TodoManager :=
  ⟨[], 0, [], ""⟩

/-- `TodoManager.reset` (agent.py lines 79-84). -/
def TodoManager.reset (_m : TodoManager) : TodoManager :=
  ⟨[], 0, [], ""⟩

/-- `TodoManager.set_requirement` (agent.py lines 86-88). -/
def TodoManager.set_requirement (m : TodoManager) (requirement : String) : TodoManager :=
  { m with user_requirement := requirement }

/-- `TodoManager.set_todos` (agent.py lines 90-94): replace the list,
reset the cursor to 0 and the results to empty. -/
def TodoManager.set_todos (m : TodoManager) (todos : List TodoItem) : TodoManager :=
  { m with todo_list := todos, current_index := 0, results := [] }

/-- `TodoManager.get_current_todo` (agent.py lines 96-100): the item at
the cursor, or `none` when past the end. -/
def TodoManager.get_current_todo (m : TodoManager) : Option TodoItem :=
  m.todo_list.get? m.current_index

/-- Set the `processed` flag of the item at the given position, the effect
of `self.todo_list[self.current_index].processed = True` (agent.py line 105). -/
def setProcessed : List TodoItem → ℕ → List TodoItem
  | [], _ => []
  | t :: ts, 0 => { t with processed := true } :: ts
  | t :: ts, n + 1 => t :: setProcessed ts n

/-- `TodoManager.mark_done` (agent.py lines 102-107): flag the current
item as processed when the cursor is in range, append the result, and
advance the cursor. -/
def TodoManager.mark_done (m : TodoManager) (r : AnalysisResult) : TodoManager :=
  { m with
    todo_list :=
      if m.current_index < m.todo_list.length
      then setProcessed m.todo_list m.current_index
      else m.todo_list,
    results := m.results ++ [r],
    current_index := m.current_index + 1 }

/-- `TodoManager.get_all_results` (agent.py lines 109-111). -/
def TodoManager.get_all_results (m : TodoManager) : List AnalysisResult :=
  m.results

/-- `TodoManager.get_target_files` (agent.py lines 113-115). -/
def TodoManager.get_target_files (m : TodoManager) : List String :=
  (m.results.filter (fun r => r.is_target)).map (fun r => r.file_name)

/-- `TodoManager.is_complete` (agent.py lines 117-119):
`current_index >= len(todo_list)`. -/
def TodoManager.is_complete (m : TodoManager) : Bool :=
  decide (m.todo_list.length ≤ m.current_index)

/-- `TodoManager.get_progress` (agent.py lines 121-123). -/
def TodoManager.get_progress (m : TodoManager) : String :=
  toString m.current_index ++ "/" ++ toString m.todo_list.length

/-- The `save_result` tool (agent.py lines 148-170), with the ambient
`ContextVar` manager made an explicit argument (spec §9 reimplementation
note); it builds an `AnalysisResult`, calls `mark_done` and returns the
progress message. -/
def save_result (m : TodoManager) (file_name : String) (is_target : Bool)
    (reason : String) : TodoManager × String :=
  let m' := m.mark_done ⟨file_name, is_target, reason⟩
  (m', "已儲存結果。進度：" ++ m'.get_progress)

/-! ## Operation traces on the Progress Tracker (for the C1 invariant) -/

/-- A mutating operation of the Progress Tracker reachable from the
controller: `set_todos` (seed) or `mark_done` (complete).  The read
operations (`get_current_todo`, `get_all_results`, `get_target_files`,
`is_complete`, `get_progress`) are pure functions of the state in this
embedding and do not appear as trace steps. -/
inductive Op
  | set_todos (todos : List TodoItem)
  | mark_done (r : AnalysisResult)
deriving DecidableEq

/-- Apply one operation to a manager state. -/
def applyOp (m : TodoManager) : Op → TodoManager
  | .set_todos ts => m.set_todos ts
  | .mark_done r => m.mark_done r

/-- Discriminator for `Op.set_todos`. -/
def Op.isSetTodos : Op → Bool
  | .set_todos _ => true
  | .mark_done _ => false

/-- Discriminator for `Op.mark_done`. -/
def Op.isMarkDone : Op → Bool
  | .set_todos _ => false
  | .mark_done _ => true

/-- All states observed along a trace of operations, the initial state
included. -/
def statesFrom (m : TodoManager) : List Op → List TodoManager
  | [] => [m]
  | op :: ops => m :: statesFrom (applyOp m op) ops

/-- A trace is guarded when every `mark_done` step is taken in a state
whose cursor is still within the checklist, the discipline §4.3 of the
spec imposes on the caller of `complete()`. -/
def guardedTrace (m : TodoManager) : List Op → Prop
  | [] => True
  | op :: ops =>
      (op.isMarkDone = true → m.current_index < m.todo_list.length) ∧
      guardedTrace (applyOp m op) ops

/-- Step-wise cursor behaviour along a trace: the cursor never decreases
across a `mark_done` step, and a `set_todos` step resets it to `0`. -/
def cursorSteps (m : TodoManager) : List Op → Prop
  | [] => True
  | op :: ops =>
      (op.isSetTodos = false → m.current_index ≤ (applyOp m op).current_index) ∧
      (op.isSetTodos = true → (applyOp m op).current_index = 0) ∧
      cursorSteps (applyOp m op) ops

/-- Invariant: the number of recorded outcomes equals the cursor. -/
def lenInv (m : TodoManager) : Prop :=
  m.results.length = m.current_index

/-- Invariant: the cursor stays within the checklist length. -/
def cursorBound (m : TodoManager) : Prop :=
  m.current_index ≤ m.todo_list.length

/-! ## Iteration Controller (`AnalyserAgent._run_async_impl`, agent.py lines 396-468)

The external execution capability is modelled, following §6 of the spec,
as an oracle giving for each (loop iteration, attempt) pair the result of
one invocation of `processor_agent.run_async`: either a fault (a raised
exception) or normal completion together with the sequence of
`save_result` reports issued during that invocation (the spec allows
exactly one report or none; the model is more liberal and allows any
finite sequence). -/

/-- Result of one capability invocation. -/
inductive CapResult
  | fault
  | ok (reports : List AnalysisResult)
deriving DecidableEq

/-- Apply the `save_result` reports issued during one invocation to the
manager, in order (each report is one `mark_done`, agent.py lines 148-170). -/
def applyReports (m : TodoManager) (reports : List AnalysisResult) : TodoManager :=
  reports.foldl TodoManager.mark_done m

/-- The retry block (agent.py lines 408-451): up to 3 attempts of the
capability.  A non-fault attempt stops the retrying and its reports are
applied; a fault on the third attempt is re-raised (`Sum.inr` carries the
number of invocations made, always 3).  On a fault no report was issued,
so the manager is unchanged (spec §6 treats fault and report as exclusive). -/
def runAttempts (m : TodoManager) (beh : ℕ → CapResult) :
    (TodoManager × ℕ) ⊕ ℕ :=
  match beh 0 with
  | .ok rs => .inl (applyReports m rs, 1)
  | .fault =>
    match beh 1 with
    | .ok rs => .inl (applyReports m rs, 2)
    | .fault =>
      match beh 2 with
      | .ok rs => .inl (applyReports m rs, 3)
      | .fault => .inr 3

/-- The outcome the watchdog synthesizes for a stalled item
(agent.py lines 460-464). -/
def forcedResult (t : TodoItem) : AnalysisResult :=
  ⟨t.description, false, "Agent 執行失敗或未回傳結果"⟩

/-- One pass of the driving loop body (agent.py lines 398-468): snapshot
the cursor, run the retry block, then the watchdog check: if the cursor
did not move, force-complete the current item with a failed outcome.
`Sum.inr` propagates a fatal third-attempt fault (invocation count
attached); `Sum.inl` returns the new manager and the invocation count.
The loop body is only entered when the manager is not complete, so the
`getD` default item is never read. -/
def loopBody (m : TodoManager) (beh : ℕ → CapResult) :
    (TodoManager × ℕ) ⊕ ℕ :=
  let t := m.get_current_todo.getD ⟨"", "", false⟩
  match runAttempts m beh with
  | .inr used => .inr used
  | .inl (m', used) =>
      .inl (if m'.current_index = m.current_index
            then m'.mark_done (forcedResult t)
            else m', used)

/-- Result of a whole controller run: normal completion or a propagated
fatal fault, together with the manager state, the number of loop
iterations executed and the number of capability invocations made.
`outOfFuel` is a modelling artefact of the fuelled recursion; the main
theorems show it is never reached with fuel `len(items) - cursor`. -/
inductive RunOutcome
  | ok (m : TodoManager) (iters : ℕ) (invocations : ℕ)
  | fatal (m : TodoManager) (iters : ℕ) (invocations : ℕ)
  | outOfFuel (m : TodoManager)
deriving DecidableEq

/-- Is the run outcome a normal completion? -/
def RunOutcome.isOk : RunOutcome → Bool
  | .ok _ _ _ => true
  | _ => false

/-- Manager state carried by a run outcome. -/
def RunOutcome.manager : RunOutcome → TodoManager
  | .ok m _ _ => m
  | .fatal m _ _ => m
  | .outOfFuel m => m

/-- Loop iterations executed by a run. -/
def RunOutcome.iters : RunOutcome → ℕ
  | .ok _ it _ => it
  | .fatal _ it _ => it
  | .outOfFuel _ => 0

/-- Capability invocations made by a run. -/
def RunOutcome.invocations : RunOutcome → ℕ
  | .ok _ _ inv => inv
  | .fatal _ _ inv => inv
  | .outOfFuel _ => 0

/-- The driving loop `while not manager.is_complete(): ...`
(agent.py lines 397-468), with explicit fuel; `beh i a` is the behaviour
of the capability at loop iteration `i`, attempt `a`. -/
def runLoopFuel : ℕ → (ℕ → ℕ → CapResult) → ℕ → TodoManager → RunOutcome
  | 0, _, _, m => if m.is_complete then .ok m 0 0 else .outOfFuel m
  | fuel + 1, beh, i, m =>
    if m.is_complete then .ok m 0 0
    else
      match loopBody m (beh i) with
      | .inr used => .fatal m 1 used
      | .inl (m', used) =>
        match runLoopFuel fuel beh (i + 1) m' with
        | .ok mf it inv => .ok mf (it + 1) (inv + used)
        | .fatal mf it inv => .fatal mf (it + 1) (inv + used)
        | .outOfFuel mf => .outOfFuel mf

/-- The controller run on a manager state: the loop needs at most
`len(items) - cursor` passes, which is the fuel supplied. -/
def runLoop (beh : ℕ → ℕ → CapResult) (m : TodoManager) : RunOutcome :=
  runLoopFuel (m.todo_list.length - m.current_index) beh 0 m

/-! ## Checklist Parser (`parse_todo_list`, agent.py lines 303-333)

The primary grammar is the anchored regular expression
`-\s*\[\s*\]\s*(.+?)\s*\|\s*(.+?)$` applied with `re.match` to each
stripped line; both captured groups are stripped.  The matcher below
implements the Python regex semantics directly (greedy `\s*`, lazy
groups, backtracking), specialised to lines that contain no newline. -/

/-- Whitespace as recognised by Python's `str.strip` and `\s` on the
ASCII range (space, tab, newline, carriage return, vertical tab, form
feed). -/
def pyIsSpace (c : Char) : Bool :=
  c == ' ' || c == '\t' || c == '\n' || c == '\r' ||
  c == Char.ofNat 11 || c == Char.ofNat 12

/-- Remove trailing whitespace. -/
def dropTrail (l : List Char) : List Char :=
  (l.reverse.dropWhile pyIsSpace).reverse

/-- Python `str.strip` on a character list. -/
def pyStripList (l : List Char) : List Char :=
  dropTrail (l.dropWhile pyIsSpace)

/-- Python `str.strip` on a string. -/
def pyStrip (s : String) : String :=
  String.mk (pyStripList s.data)

/-- Does the first list start the second one? -/
def listStarts : List Char → List Char → Bool
  | [], _ => true
  | _ :: _, [] => false
  | a :: as, b :: bs => a == b && listStarts as bs

/-- Python's substring test `needle in hay`. -/
def listContains (needle : List Char) : List Char → Bool
  | [] => listStarts needle []
  | c :: t => listStarts needle (c :: t) || listContains needle t

/-- Find the first `'|'` that has at least one character after it,
returning the characters before and after it.  This locates the pipe the
backtracking engine commits to in `(.+?)\s*\|\s*(.+?)$` once at least one
character precedes the search region. -/
def pipeSplitAny : List Char → Option (List Char × List Char)
  | [] => none
  | c :: cs =>
    if c = '|' then
      if cs = [] then none else some ([], cs)
    else
      match pipeSplitAny cs with
      | some (a, b) => some (c :: a, b)
      | none => none

/-- Match the tail `\s*(.+?)\s*\|\s*(.+?)$` of the primary grammar
against the characters following the `]`, returning the stripped
description and note.  The greedy leading `\s*` makes the engine pick the
first `'|'` strictly after the first non-space character (the group then
being everything up to it, stripped); if no such pipe exists the engine
backtracks one whitespace character so that a `'|'` placed directly after
the whitespace run can still match, with an empty description. -/
def matchBody (r : List Char) : Option (String × String) :=
  let ws := r.takeWhile pyIsSpace
  match r.dropWhile pyIsSpace with
  | [] => none
  | c :: cs =>
    match pipeSplitAny cs with
    | some ab => some (String.mk (pyStripList (c :: ab.1)), String.mk (pyStripList ab.2))
    | none =>
      if c = '|' ∧ ws ≠ [] ∧ cs ≠ [] then some ("", String.mk (pyStripList cs))
      else none

/-- `re.match` of the primary grammar `-\s*\[\s*\]\s*(.+?)\s*\|\s*(.+?)$`
against one (already stripped) line. -/
def strictMatch (line : List Char) : Option (String × String) :=
  match line with
  | '-' :: r =>
    match r.dropWhile pyIsSpace with
    | '[' :: r2 =>
      match r2.dropWhile pyIsSpace with
      | ']' :: r3 => matchBody r3
      | _ => none
    | _ => none
  | _ => none

/-- Python `str.replace` with fuel (structural recursion so that the
kernel can evaluate it); replaces non-overlapping occurrences of the
pattern left to right.  Fuel at least the length of the scanned list
suffices, since every step consumes at least one character. -/
def replaceFuel (pat repl : List Char) : ℕ → List Char → List Char
  | 0, l => l
  | _, [] => []
  | fuel + 1, c :: t =>
    if pat ≠ [] ∧ listStarts pat (c :: t) = true then
      repl ++ replaceFuel pat repl fuel ((c :: t).drop pat.length)
    else
      c :: replaceFuel pat repl fuel t

/-- Python `str.replace` on character lists (for a non-empty pattern). -/
def replaceList (pat repl l : List Char) : List Char :=
  replaceFuel pat repl l.length l

/-- Python `str.split('\n')`: split at every newline, keeping empty
pieces. -/
def splitNl : List Char → List (List Char)
  | [] => [[]]
  | c :: t =>
    let r := splitNl t
    if c = '\n' then [] :: r else (c :: r.headD []) :: r.tail

/-- Removal of fenced-block markers (agent.py line 314):
`raw.replace("```json", "").replace("```", "")`. -/
def stripFence (raw : String) : String :=
  String.mk (replaceList "```".data [] (replaceList "```json".data [] raw.data))

/-- The lines the primary grammar is applied to (agent.py line 314):
fence markers removed, the whole text stripped, then split on newlines. -/
def cleanLines (raw : String) : List String :=
  (splitNl (pyStrip (stripFence raw)).data).map String.mk

/-- Per-line behaviour of the primary pass (agent.py lines 316-325):
strip the line, skip it when empty, otherwise match the primary grammar
and build a `TodoItem` from the stripped groups. -/
def primLine (line : String) : Option TodoItem :=
  let l := pyStrip line
  if l.data = [] then none
  else
    match strictMatch l.data with
    | some dn => some ⟨dn.1, dn.2, false⟩
    | none => none

/-- The primary pass of `parse_todo_list` (agent.py lines 310-325). -/
def parsePrimary (raw : String) : List TodoItem :=
  (cleanLines raw).foldl
    (fun acc line =>
      match primLine line with
      | some it => acc ++ [it]
      | none => acc)
    []

/-- Per-line behaviour of the fallback pass (agent.py lines 328-331):
any line containing `查閱` and `「` becomes an item with the whole
stripped line as description and an empty note. -/
def fbLine (line : String) : Option TodoItem :=
  if listContains "查閱".data line.data && listContains "「".data line.data
  then some ⟨pyStrip line, "", false⟩
  else none

/-- The lines the fallback pass is applied to (agent.py line 329): the
raw text (not the fence-stripped one) split on newlines. -/
def rawLines (raw : String) : List String :=
  (splitNl raw.data).map String.mk

/-- The fallback pass of `parse_todo_list` (agent.py lines 327-331),
applied to the raw text (not the fence-stripped one). -/
def parseFallback (raw : String) : List TodoItem :=
  (rawLines raw).foldl
    (fun acc line =>
      match fbLine line with
      | some it => acc ++ [it]
      | none => acc)
    []

/-- `parse_todo_list` (agent.py lines 303-333): the primary pass, then
the fallback pass exactly when the primary pass produced nothing. -/
def parse_todo_list (raw : String) : List TodoItem :=
  let todos := parsePrimary raw
  if todos = [] then parseFallback raw else todos

/-! ## Document store (`db.py`)

The `documents` table is modelled as a list of rows; SQL `NULL` becomes
`Option.none`. -/

/-- One row of the `documents` table (spec §3: module required, the other
three fields nullable). -/
structure DocRecord where
  module : String
  file_name : Option String
  content : Option String
  file_path : Option String
deriving DecidableEq

open Classical in
/-- `get_files_by_module` (db.py lines 63-88):
`SELECT file_name FROM documents WHERE module = %s AND file_name IS NOT
NULL ORDER BY file_name`. -/
noncomputable def get_files_by_module (db : List DocRecord) (module : String) :
    List String :=
  List.insertionSort (fun a b => a ≤ b)
    (db.filterMap (fun r => if r.module = module then r.file_name else none))

/-! ## Ranking engine (`bm25_search`, db.py lines 167-212)

`bm25_search` tokenizes each document with `jieba.cut` and hands the
token lists to `rank_bm25.BM25Okapi`.  Tokenization is external; the
model takes each corpus entry as a `(file_name, token list)` pair and the
query as a token list.  Floating point arithmetic is modelled over `ℝ`.

`BM25Okapi.__init__` (library code, defaults `k1=1.5`, `b=0.75`,
`epsilon=0.25`) computes for every term `w` of the corpus the raw
inverse document frequency
`log(N - n_w + 0.5) - log(n_w + 0.5)` and then replaces every negative
value by `epsilon * average_idf` where `average_idf` is the mean of the
raw values; db.py lines 188-195 afterwards recompute the mean over the
(already corrected) `bm25.idf` values and replace any still-negative
entry by `0.25` times that mean. -/

/-- Number of corpus documents containing the term (the library's `nd`). -/
def docFreq (corpus : List (List String)) (w : String) : ℕ :=
  corpus.countP (fun d => d.contains w)

/-- The distinct terms of the corpus (the keys of `bm25.idf`). -/
def allWords (corpus : List (List String)) : List String :=
  corpus.flatten.dedup

/-- Raw Okapi inverse document frequency of a term occurring in `nw` of
`n` documents: `log(n - nw + 0.5) - log(nw + 0.5)`. -/
noncomputable def rawIdf (n nw : ℕ) : ℝ :=
  Real.log ((n : ℝ) - (nw : ℝ) + 1 / 2) - Real.log ((nw : ℝ) + 1 / 2)

/-- Raw inverse document frequency of a term in a corpus. -/
noncomputable def corpusRawIdf (corpus : List (List String)) (w : String) : ℝ :=
  rawIdf corpus.length (docFreq corpus w)

/-- The library's `average_idf`: mean of the raw idf over all terms. -/
noncomputable def averageIdf (corpus : List (List String)) : ℝ :=
  ((allWords corpus).map (corpusRawIdf corpus)).sum / ((allWords corpus).length : ℝ)

open Classical in
/-- The idf table after `BM25Okapi._calc_idf`: negative raw values are
replaced by `epsilon * average_idf` with the default `epsilon = 0.25`. -/
noncomputable def okapiIdf (corpus : List (List String)) (w : String) : ℝ :=
  if corpusRawIdf corpus w < 0 then 0.25 * averageIdf corpus
  else corpusRawIdf corpus w

/-- The mean recomputed by db.py line 191 over the library-corrected idf
values. -/
noncomputable def dbAverageIdf (corpus : List (List String)) : ℝ :=
  ((allWords corpus).map (okapiIdf corpus)).sum / ((allWords corpus).length : ℝ)

open Classical in
/-- The effective term weight after the repository's own floor
(db.py lines 191-195): any still-negative value is replaced by
`0.25 * dbAverageIdf`. -/
noncomputable def effIdf (corpus : List (List String)) (w : String) : ℝ :=
  if okapiIdf corpus w < 0 then 0.25 * dbAverageIdf corpus
  else okapiIdf corpus w

open Classical in
/-- `self.idf.get(q) or 0` in `BM25Okapi.get_scores`: terms absent from
the corpus weigh nothing (`or 0` also maps a stored `0.0` to `0`). -/
noncomputable def idfOrZero (corpus : List (List String)) (q : String) : ℝ :=
  if q ∈ allWords corpus then effIdf corpus q else 0

/-- Occurrences of a term in a document (the library's `doc_freqs`). -/
def termFreq (doc : List String) (w : String) : ℕ :=
  doc.count w

/-- The library's `avgdl`: mean document length in tokens. -/
noncomputable def avgdl (corpus : List (List String)) : ℝ :=
  ((corpus.map List.length).sum : ℝ) / (corpus.length : ℝ)

/-- `k1` parameter of `BM25Okapi` (default 1.5). -/
noncomputable def bm25K1 : ℝ := 3 / 2

/-- `b` parameter of `BM25Okapi` (default 0.75). -/
noncomputable def bm25B : ℝ := 3 / 4

/-- Contribution of one query term to one document's score, as in
`BM25Okapi.get_scores`. -/
noncomputable def bm25TermScore (corpus : List (List String)) (doc : List String)
    (q : String) : ℝ :=
  idfOrZero corpus q *
    ((termFreq doc q : ℝ) * (bm25K1 + 1) /
      ((termFreq doc q : ℝ) + bm25K1 * (1 - bm25B + bm25B * (doc.length : ℝ) / avgdl corpus)))

/-- `BM25Okapi.get_scores`: sum of the term contributions over the query
tokens (duplicated query tokens count twice). -/
noncomputable def bm25Score (corpus : List (List String)) (query : List String)
    (doc : List String) : ℝ :=
  (query.map (bm25TermScore corpus doc)).sum

/-- A ranking candidate: corpus position, file name, score. -/
abbrev RankEntry := ℕ × String × ℝ

/-- Order produced by Python's stable `sort(key=score, reverse=True)` on
entries carrying their corpus position: higher score first, equal scores
in corpus order. -/
def rankLE (a b : RankEntry) : Prop :=
  b.2.2 < a.2.2 ∨ (a.2.2 = b.2.2 ∧ a.1 ≤ b.1)

open Classical in
/-- Comparing real scores is classically decidable. -/
noncomputable instance : DecidableRel rankLE :=
  fun _ _ => propDecidable _

open Classical in
/-- The positively scored entries, in corpus order with their positions
(db.py lines 204-207). -/
noncomputable def bm25Candidates (docs : List (String × List String))
    (query : List String) : List RankEntry :=
  (docs.enum.map (fun p => (p.1, p.2.1, bm25Score (docs.map Prod.snd) query p.2.2))).filter
    (fun e => decide (0 < e.2.2))

/-- The candidates sorted by score descending, ties in corpus order
(db.py line 210; Python's sort is stable, and on entries with distinct
positions the stable descending sort is the unique `rankLE`-sorted
permutation). -/
noncomputable def bm25Ranked (docs : List (String × List String))
    (query : List String) : List RankEntry :=
  List.insertionSort rankLE (bm25Candidates docs query)

/-- `bm25_search` (db.py lines 167-212): empty corpus short-circuits to
an empty result; otherwise score, keep positive scores, sort descending,
truncate to the first `n` (the Python default for `n` is 10). -/
noncomputable def bm25_search (docs : List (String × List String))
    (query : List String) (n : ℕ) : List (String × ℝ) :=
  if docs.isEmpty then []
  else ((bm25Ranked docs query).map (fun e => (e.2.1, e.2.2))).take n

/-- Transitivity of the ranking order. -/
instance : IsTrans RankEntry rankLE :=
  ⟨by
    intro a b c hab hbc
    rcases hab with h1 | ⟨h1, h2⟩ <;> rcases hbc with h3 | ⟨h3, h4⟩
    · exact Or.inl (lt_trans h3 h1)
    · exact Or.inl (h3 ▸ h1)
    · exact Or.inl (h1 ▸ h3)
    · exact Or.inr ⟨h1.trans h3, le_trans h2 h4⟩⟩

/-- Totality of the ranking order. -/
instance : IsTotal RankEntry rankLE :=
  ⟨by
    intro a b
    rcases lt_trichotomy a.2.2 b.2.2 with h | h | h
    · exact Or.inr (Or.inl h)
    · rcases le_total a.1 b.1 with hi | hi
      · exact Or.inl (Or.inr ⟨h, hi⟩)
      · exact Or.inr (Or.inr ⟨h.symm, hi⟩)
    · exact Or.inl (Or.inl h)⟩

/-! ## Concrete inputs used by witnesses and counterexamples -/

/-- A sample analysis result. -/
def cexResult : AnalysisResult := ⟨"f", false, "r"⟩

/-- A sample TODO item. -/
def cexItem : TodoItem := ⟨"d", "n", false⟩

/-- Operation trace refuting the unrestricted C1 invariant: seed with an
empty checklist, complete once anyway, then re-seed. -/
def cexOps : List Op := [Op.set_todos [], Op.mark_done cexResult, Op.set_todos []]

/-- A guarded operation trace: seed one item, then complete it once. -/
def witOps : List Op := [Op.set_todos [cexItem], Op.mark_done cexResult]

/-- A 2-item manager used by controller witnesses. -/
def witManager2 : TodoManager :=
  TodoManager.init.set_todos [⟨"t1", "n1", false⟩, ⟨"t2", "n2", false⟩]

/-- A 1-item manager used by controller witnesses. -/
def witManager1 : TodoManager :=
  TodoManager.init.set_todos [⟨"t1", "n1", false⟩]

/-- Capability behaviour that always completes without reporting any
outcome (silent non-cooperation, spec Scenario 4). -/
def behSilent : ℕ → ℕ → CapResult := fun _ _ => CapResult.ok []

/-- Capability behaviour that faults on every attempt (spec Scenario 5). -/
def behFault : ℕ → ℕ → CapResult := fun _ _ => CapResult.fault

/-- Two-document corpus in which the single term occurs in both
documents: its raw idf and the corpus mean raw idf are both negative. -/
def cexCorpus : List (List String) := [["x"], ["x"]]

/-- Three-document corpus whose mean raw idf is positive while the term
`w` occurs in two of the three documents and has negative raw idf. -/
def witCorpus : List (List String) := [["a", "w"], ["b", "w"], ["c"]]

/-! # Theorems -/

/-! ## Basic facts about the Progress Tracker operations -/

theorem setProcessed_length (l : List TodoItem) (i : ℕ) :
    (setProcessed l i).length = l.length := by
  induction l generalizing i with
  | nil => rfl
  | cons t ts ih =>
    cases i with
    | zero => rfl
    | succ n => simpa [setProcessed] using ih n

theorem mark_done_todo_length (m : TodoManager) (r : AnalysisResult) :
    (m.mark_done r).todo_list.length = m.todo_list.length := by
  simp only [TodoManager.mark_done]
  split <;> simp [setProcessed_length]

theorem mark_done_index (m : TodoManager) (r : AnalysisResult) :
    (m.mark_done r).current_index = m.current_index + 1 := rfl

theorem mark_done_results (m : TodoManager) (r : AnalysisResult) :
    (m.mark_done r).results = m.results ++ [r] := rfl

theorem applyReports_nil (m : TodoManager) : applyReports m [] = m := rfl

theorem applyReports_todo_length (m : TodoManager) (rs : List AnalysisResult) :
    (applyReports m rs).todo_list.length = m.todo_list.length := by
  induction rs generalizing m with
  | nil => rfl
  | cons r rs ih =>
    simpa [applyReports, List.foldl_cons, mark_done_todo_length]
      using (ih (m.mark_done r)).trans (mark_done_todo_length m r)

theorem applyReports_index (m : TodoManager) (rs : List AnalysisResult) :
    (applyReports m rs).current_index = m.current_index + rs.length := by
  induction rs generalizing m with
  | nil => rfl
  | cons r rs ih =>
    have : applyReports m (r :: rs) = applyReports (m.mark_done r) rs := rfl
    rw [this, ih, mark_done_index, List.length_cons]
    omega

/-! ## C1: the Progress Tracker invariant -/

theorem applyOp_lenInv (m : TodoManager) (op : Op) (h : lenInv m) :
    lenInv (applyOp m op) := by
  cases op with
  | set_todos ts => simp [lenInv, applyOp, TodoManager.set_todos]
  | mark_done r =>
    simp only [lenInv] at h
    simp only [lenInv, applyOp, mark_done_results, mark_done_index,
      List.length_append, List.length_cons, List.length_nil]
    omega

theorem applyOp_cursorBound (m : TodoManager) (op : Op)
    (hg : op.isMarkDone = true → m.current_index < m.todo_list.length) :
    cursorBound (applyOp m op) := by
  cases op with
  | set_todos ts => simp [cursorBound, applyOp, TodoManager.set_todos]
  | mark_done r =>
    have hlt := hg rfl
    simp only [cursorBound, applyOp, mark_done_index, mark_done_todo_length]
    omega

/-- Claim C1, counterexample: on the trace "seed the empty checklist,
complete once anyway, re-seed", the cursor first exceeds the checklist
length (refuting `cursor <= len(items)` at every observable point) and
then decreases back to 0 (refuting that the cursor is non-decreasing). -/
theorem C1_counterexample :
    (¬ ∀ m ∈ statesFrom TodoManager.init cexOps,
        m.current_index ≤ m.todo_list.length) ∧
    (applyOp (applyOp (applyOp TodoManager.init (Op.set_todos []))
        (Op.mark_done cexResult)) (Op.set_todos [])).current_index <
      (applyOp (applyOp TodoManager.init (Op.set_todos []))
        (Op.mark_done cexResult)).current_index := by
  constructor
  · intro h
    have := h (applyOp (applyOp TodoManager.init (Op.set_todos []))
      (Op.mark_done cexResult)) (by simp [cexOps, statesFrom])
    simp [applyOp, TodoManager.set_todos, TodoManager.mark_done,
      TodoManager.init] at this
  · simp [applyOp, TodoManager.set_todos, TodoManager.mark_done,
      TodoManager.init]

/-- Claim C1 (amended): for every sequence of `set_todos`/`mark_done`
operations in which `mark_done` is only invoked while the cursor is still
within the checklist (the calling discipline §4.3 demands), every
observable state satisfies `len(outcomes) = cursor` and
`0 ≤ cursor ≤ len(items)`; moreover the cursor never decreases across a
`mark_done` step, while a `set_todos` step resets it to 0.  (The read
operations are pure functions of the state and do not change it.) -/
theorem C1_amended (m0 : TodoManager) (ops : List Op)
    (h1 : lenInv m0) (h2 : cursorBound m0) (hg : guardedTrace m0 ops) :
    (∀ m ∈ statesFrom m0 ops, lenInv m ∧ cursorBound m) ∧
    cursorSteps m0 ops := by
  induction ops generalizing m0 with
  | nil =>
    refine ⟨?_, trivial⟩
    intro m hm
    simp only [statesFrom, List.mem_singleton] at hm
    exact hm ▸ ⟨h1, h2⟩
  | cons op ops ih =>
    obtain ⟨hgop, hgrest⟩ := hg
    have h1' := applyOp_lenInv m0 op h1
    have h2' := applyOp_cursorBound m0 op hgop
    obtain ⟨ihAll, ihSteps⟩ := ih (applyOp m0 op) h1' h2' hgrest
    refine ⟨?_, ?_, ?_, ihSteps⟩
    · intro m hm
      simp only [statesFrom, List.mem_cons] at hm
      rcases hm with rfl | hm
      · exact ⟨h1, h2⟩
      · exact ihAll m hm
    · intro hnot
      cases op with
      | set_todos ts => simp [Op.isSetTodos] at hnot
      | mark_done r => simp [applyOp, mark_done_index]
    · intro hyes
      cases op with
      | set_todos ts => simp [applyOp, TodoManager.set_todos]
      | mark_done r => simp [Op.isSetTodos] at hyes

/-! ## Facts about the retry block and the loop body -/

theorem runAttempts_inl (m : TodoManager) (beh : ℕ → CapResult)
    (m' : TodoManager) (used : ℕ)
    (h : runAttempts m beh = Sum.inl (m', used)) :
    (∃ rs, m' = applyReports m rs) ∧ 1 ≤ used ∧ used ≤ 3 := by
  unfold runAttempts at h
  cases hb0 : beh 0 with
  | ok rs =>
    rw [hb0] at h
    simp only [Sum.inl.injEq, Prod.mk.injEq] at h
    exact ⟨⟨rs, h.1.symm⟩, by omega⟩
  | fault =>
    rw [hb0] at h
    cases hb1 : beh 1 with
    | ok rs =>
      rw [hb1] at h
      simp only [Sum.inl.injEq, Prod.mk.injEq] at h
      exact ⟨⟨rs, h.1.symm⟩, by omega⟩
    | fault =>
      rw [hb1] at h
      cases hb2 : beh 2 with
      | ok rs =>
        rw [hb2] at h
        simp only [Sum.inl.injEq, Prod.mk.injEq] at h
        exact ⟨⟨rs, h.1.symm⟩, by omega⟩
      | fault => rw [hb2] at h; cases h

theorem runAttempts_inr (m : TodoManager) (beh : ℕ → CapResult) (used : ℕ)
    (h : runAttempts m beh = Sum.inr used) :
    beh 0 = CapResult.fault ∧ beh 1 = CapResult.fault ∧
    beh 2 = CapResult.fault ∧ used = 3 := by
  unfold runAttempts at h
  cases hb0 : beh 0 with
  | ok rs => rw [hb0] at h; cases h
  | fault =>
    rw [hb0] at h
    cases hb1 : beh 1 with
    | ok rs => rw [hb1] at h; cases h
    | fault =>
      rw [hb1] at h
      cases hb2 : beh 2 with
      | ok rs => rw [hb2] at h; cases h
      | fault =>
        rw [hb2] at h
        simp only [Sum.inr.injEq] at h
        exact ⟨rfl, rfl, rfl, h.symm⟩

theorem loopBody_inr (m : TodoManager) (beh : ℕ → CapResult) (used : ℕ)
    (h : loopBody m beh = Sum.inr used) :
    beh 0 = CapResult.fault ∧ beh 1 = CapResult.fault ∧
    beh 2 = CapResult.fault ∧ used = 3 := by
  unfold loopBody at h
  cases hA : runAttempts m beh with
  | inr u =>
    rw [hA] at h
    simp only [Sum.inr.injEq] at h
    exact h ▸ runAttempts_inr m beh u hA
  | inl p => rw [hA] at h; cases h

theorem loopBody_inl (m : TodoManager) (beh : ℕ → CapResult)
    (m'' : TodoManager) (used : ℕ)
    (h : loopBody m beh = Sum.inl (m'', used)) :
    m''.todo_list.length = m.todo_list.length ∧
    m.current_index < m''.current_index ∧ 1 ≤ used ∧ used ≤ 3 := by
  unfold loopBody at h
  cases hA : runAttempts m beh with
  | inr u => rw [hA] at h; cases h
  | inl p =>
    obtain ⟨m', u⟩ := p
    rw [hA] at h
    simp only [Sum.inl.injEq, Prod.mk.injEq] at h
    obtain ⟨hm, hu⟩ := h
    obtain ⟨⟨rs, hrs⟩, hu1, hu3⟩ := runAttempts_inl m beh m' u hA
    subst hrs hu hm
    by_cases hst : (applyReports m rs).current_index = m.current_index
    · rw [if_pos hst]
      refine ⟨?_, ?_, hu1, hu3⟩
      · rw [mark_done_todo_length, applyReports_todo_length]
      · rw [mark_done_index, hst]
        omega
    · rw [if_neg hst]
      refine ⟨applyReports_todo_length m rs, ?_, hu1, hu3⟩
      rw [applyReports_index] at hst ⊢
      omega

/-! ## C3: the stall watchdog -/

/-- Claim C3: whenever the retry block completes without a propagated
fault (`runAttempts` returns `Sum.inl`) but the cursor still equals its
snapshot taken before the block, the manager is in fact unchanged, and
the loop body appends exactly one synthesized outcome whose subject is
the current item's description and whose verdict is `false`, advancing
the cursor by one via `mark_done`. -/
theorem C3_stall_synthesizes (m : TodoManager) (beh : ℕ → CapResult)
    (h : m.current_index < m.todo_list.length)
    (m' : TodoManager) (used : ℕ)
    (hA : runAttempts m beh = Sum.inl (m', used))
    (hstall : m'.current_index = m.current_index) :
    m' = m ∧
    loopBody m beh =
      Sum.inl (m.mark_done (forcedResult (m.todo_list.get ⟨m.current_index, h⟩)),
        used) ∧
    (forcedResult (m.todo_list.get ⟨m.current_index, h⟩)).file_name =
      (m.todo_list.get ⟨m.current_index, h⟩).description ∧
    (forcedResult (m.todo_list.get ⟨m.current_index, h⟩)).is_target = false ∧
    (m.mark_done (forcedResult (m.todo_list.get ⟨m.current_index, h⟩))).results =
      m.results ++ [forcedResult (m.todo_list.get ⟨m.current_index, h⟩)] ∧
    (m.mark_done (forcedResult (m.todo_list.get ⟨m.current_index, h⟩))).current_index =
      m.current_index + 1 := by
  obtain ⟨⟨rs, hrs⟩, _, _⟩ := runAttempts_inl m beh m' used hA
  have hnil : rs = [] := by
    have := applyReports_index m rs
    rw [← hrs, hstall] at this
    have : rs.length = 0 := by omega
    exact List.length_eq_zero.mp this
  have hm' : m' = m := by rw [hrs, hnil, applyReports_nil]
  subst hm'
  refine ⟨rfl, ?_, rfl, rfl, rfl, rfl⟩
  have hcur : m'.get_current_todo = some (m'.todo_list.get ⟨m'.current_index, h⟩) :=
    List.get?_eq_get h
  simp [loopBody, hA, hcur, Option.getD_some]

/-- Witness for C3: a 1-item manager and a capability that completes
silently on the first attempt. -/
theorem C3_witness :
    witManager1 = witManager1 ∧
    loopBody witManager1 (behSilent 0) =
      Sum.inl (witManager1.mark_done
        (forcedResult (witManager1.todo_list.get ⟨witManager1.current_index, by decide⟩)),
        1) ∧
    (forcedResult (witManager1.todo_list.get ⟨witManager1.current_index, by decide⟩)).file_name =
      (witManager1.todo_list.get ⟨witManager1.current_index, by decide⟩).description ∧
    (forcedResult (witManager1.todo_list.get ⟨witManager1.current_index, by decide⟩)).is_target = false ∧
    (witManager1.mark_done
        (forcedResult (witManager1.todo_list.get ⟨witManager1.current_index, by decide⟩))).results =
      witManager1.results ++
        [forcedResult (witManager1.todo_list.get ⟨witManager1.current_index, by decide⟩)] ∧
    (witManager1.mark_done
        (forcedResult (witManager1.todo_list.get ⟨witManager1.current_index, by decide⟩))).current_index =
      witManager1.current_index + 1 :=
  C3_stall_synthesizes witManager1 (behSilent 0) (by decide) witManager1 1 rfl rfl

/-! ## C4: fatal third-attempt fault -/

/-- Claim C4: if the capability faults on all three attempts for the
current item, the third fault propagates out of the controller
(`RunOutcome.fatal`) with the manager state unchanged — no outcome is
appended and the cursor does not advance — after exactly 3 capability
invocations. -/
theorem C4_fatal_abort (m : TodoManager) (beh : ℕ → ℕ → CapResult)
    (h : m.is_complete = false)
    (h0 : beh 0 0 = CapResult.fault) (h1 : beh 0 1 = CapResult.fault)
    (h2 : beh 0 2 = CapResult.fault) :
    runLoop beh m = RunOutcome.fatal m 1 3 := by
  have hlt : m.current_index < m.todo_list.length := by
    simp only [TodoManager.is_complete, decide_eq_false_iff_not] at h
    omega
  obtain ⟨k, hk⟩ : ∃ k, m.todo_list.length - m.current_index = k + 1 :=
    ⟨m.todo_list.length - m.current_index - 1, by omega⟩
  have hB : loopBody m (beh 0) = Sum.inr 3 := by
    unfold loopBody runAttempts
    rw [h0, h1, h2]
  unfold runLoop
  rw [hk]
  simp [runLoopFuel, h, hB]

/-- Witness for C4, spec Scenario 5: a 1-item checklist whose capability
faults on every attempt aborts fatally with the cursor still 0 and no
outcomes recorded. -/
theorem C4_witness :
    runLoop behFault witManager1 = RunOutcome.fatal witManager1 1 3 ∧
    witManager1.current_index = 0 ∧ witManager1.results = [] :=
  ⟨C4_fatal_abort witManager1 behFault rfl rfl rfl rfl, rfl, rfl⟩

/-! ## C2: termination and work bounds of the driving loop -/

theorem runLoopFuel_ok (beh : ℕ → ℕ → CapResult)
    (hbeh : ∀ j, beh j 2 ≠ CapResult.fault) :
    ∀ (fuel i : ℕ) (m : TodoManager),
    m.todo_list.length - m.current_index ≤ fuel →
    (runLoopFuel fuel beh i m).isOk = true ∧
    (runLoopFuel fuel beh i m).iters ≤ m.todo_list.length - m.current_index ∧
    (runLoopFuel fuel beh i m).invocations ≤ 3 * (runLoopFuel fuel beh i m).iters := by
  intro fuel
  induction fuel with
  | zero =>
    intro i m hf
    have hc : m.is_complete = true := by
      simp only [TodoManager.is_complete, decide_eq_true_eq]
      omega
    simp [runLoopFuel, hc, RunOutcome.isOk, RunOutcome.iters, RunOutcome.invocations]
  | succ fuel ih =>
    intro i m hf
    by_cases hc : m.is_complete = true
    · simp [runLoopFuel, hc, RunOutcome.isOk, RunOutcome.iters, RunOutcome.invocations]
    · have hlt : m.current_index < m.todo_list.length := by
        simp only [TodoManager.is_complete, decide_eq_true_eq] at hc
        omega
      rw [Bool.not_eq_true] at hc
      cases hB : loopBody m (beh i) with
      | inr used =>
        exact absurd (loopBody_inr m (beh i) used hB).2.2.1 (hbeh i)
      | inl p =>
        obtain ⟨m', used⟩ := p
        obtain ⟨hlen, hidx, hu1, hu3⟩ := loopBody_inl m (beh i) m' used hB
        have hrec := ih (i + 1) m' (by omega)
        have hgoal : runLoopFuel (fuel + 1) beh i m =
            match runLoopFuel fuel beh (i + 1) m' with
            | RunOutcome.ok mf it inv => RunOutcome.ok mf (it + 1) (inv + used)
            | RunOutcome.fatal mf it inv => RunOutcome.fatal mf (it + 1) (inv + used)
            | RunOutcome.outOfFuel mf => RunOutcome.outOfFuel mf := by
          simp only [runLoopFuel, hc, hB, Bool.false_eq_true, if_false]
        rw [hgoal]
        cases hR : runLoopFuel fuel beh (i + 1) m' with
        | ok mf it inv =>
          rw [hR] at hrec
          simp only [RunOutcome.isOk, RunOutcome.iters, RunOutcome.invocations] at hrec ⊢
          exact ⟨trivial, by omega, by omega⟩
        | fatal mf it inv =>
          rw [hR] at hrec
          simp [RunOutcome.isOk] at hrec
        | outOfFuel mf =>
          rw [hR] at hrec
          simp [RunOutcome.isOk] at hrec

/-- Claim C2: for every checklist and every capability behaviour that
never faults on a third attempt, the driving loop terminates normally
(fuel `len(items)` suffices and no fatal fault occurs), runs at most
`len(items)` loop iterations, and makes at most `3 * len(items)`
capability invocations. -/
theorem C2_terminates (todos : List TodoItem) (beh : ℕ → ℕ → CapResult)
    (hbeh : ∀ j, beh j 2 ≠ CapResult.fault) :
    (runLoop beh (TodoManager.init.set_todos todos)).isOk = true ∧
    (runLoop beh (TodoManager.init.set_todos todos)).iters ≤ todos.length ∧
    (runLoop beh (TodoManager.init.set_todos todos)).invocations ≤
      3 * todos.length := by
  have h := runLoopFuel_ok beh hbeh
    ((TodoManager.init.set_todos todos).todo_list.length -
      (TodoManager.init.set_todos todos).current_index) 0
    (TodoManager.init.set_todos todos) (le_refl _)
  have hlen : (TodoManager.init.set_todos todos).todo_list.length -
      (TodoManager.init.set_todos todos).current_index = todos.length := rfl
  rw [hlen] at h
  unfold runLoop
  rw [hlen]
  exact ⟨h.1, h.2.1, le_trans h.2.2 (by omega)⟩

/-- Witness for C2, spec Scenario 4's shape: a 2-item checklist with a
capability that never reports (and never faults) terminates normally
within the bounds. -/
theorem C2_witness :
    (runLoop behSilent
      (TodoManager.init.set_todos [⟨"t1", "n1", false⟩, ⟨"t2", "n2", false⟩])).isOk = true ∧
    (runLoop behSilent
      (TodoManager.init.set_todos [⟨"t1", "n1", false⟩, ⟨"t2", "n2", false⟩])).iters ≤ 2 ∧
    (runLoop behSilent
      (TodoManager.init.set_todos [⟨"t1", "n1", false⟩, ⟨"t2", "n2", false⟩])).invocations ≤ 6 :=
  C2_terminates [⟨"t1", "n1", false⟩, ⟨"t2", "n2", false⟩] behSilent
    (fun j h => by simp [behSilent] at h)

/-- Claim C10: invoking `mark_done` (as `save_result` does) on an
already-complete tracker does not fail: the outcome is still appended and
the cursor still advances, pushing the cursor strictly beyond the
checklist length while `len(outcomes) = cursor` is preserved; no item is
touched, since the `processed`-flag update is guarded by
`current_index < len(todo_list)`.  The `save_result` tool is exactly a
`mark_done` of the result built from its arguments. -/
theorem C10_over_completion (m : TodoManager) (r : AnalysisResult)
    (fn : String) (tgt : Bool) (rsn : String)
    (h : m.is_complete = true) :
    (m.mark_done r).results = m.results ++ [r] ∧
    (m.mark_done r).current_index = m.current_index + 1 ∧
    (m.mark_done r).todo_list = m.todo_list ∧
    (m.mark_done r).todo_list.length < (m.mark_done r).current_index ∧
    (lenInv m → lenInv (m.mark_done r)) ∧
    (save_result m fn tgt rsn).1 = m.mark_done ⟨fn, tgt, rsn⟩ := by
  simp only [TodoManager.is_complete, decide_eq_true_eq] at h
  refine ⟨rfl, rfl, ?_, ?_, ?_, rfl⟩
  · simp only [TodoManager.mark_done]
    rw [if_neg (by omega)]
  · rw [mark_done_todo_length, mark_done_index]
    omega
  · intro hl
    simp only [lenInv] at hl ⊢
    simp only [mark_done_results, mark_done_index, List.length_append,
      List.length_cons, List.length_nil]
    omega

/-- Witness for C10 on the freshly initialised (hence complete, `0/0`)
manager. -/
theorem C10_witness :
    (TodoManager.init.mark_done cexResult).results =
      TodoManager.init.results ++ [cexResult] ∧
    (TodoManager.init.mark_done cexResult).current_index =
      TodoManager.init.current_index + 1 ∧
    (TodoManager.init.mark_done cexResult).todo_list =
      TodoManager.init.todo_list ∧
    (TodoManager.init.mark_done cexResult).todo_list.length <
      (TodoManager.init.mark_done cexResult).current_index ∧
    (lenInv TodoManager.init → lenInv (TodoManager.init.mark_done cexResult)) ∧
    (save_result TodoManager.init "f" false "r").1 =
      TodoManager.init.mark_done ⟨"f", false, "r"⟩ :=
  C10_over_completion TodoManager.init cexResult "f" false "r" rfl

/-! ## Facts about the checklist parser -/

theorem foldl_collect_eq_filterMap (g : String → Option TodoItem)
    (lines : List String) (acc : List TodoItem) :
    lines.foldl
      (fun acc line =>
        match g line with
        | some it => acc ++ [it]
        | none => acc) acc = acc ++ lines.filterMap g := by
  induction lines generalizing acc with
  | nil => simp
  | cons l ls ih =>
    cases hg : g l with
    | none => simp [List.foldl_cons, hg, ih]
    | some it => simp [List.foldl_cons, hg, ih]

theorem parsePrimary_eq_filterMap (raw : String) :
    parsePrimary raw = (cleanLines raw).filterMap primLine :=
  foldl_collect_eq_filterMap primLine (cleanLines raw) []

theorem parseFallback_eq_filterMap (raw : String) :
    parseFallback raw = (rawLines raw).filterMap fbLine :=
  foldl_collect_eq_filterMap fbLine (rawLines raw) []

theorem dropWhile_of_isPrefix (p : Char → Bool) {s y : List Char}
    (hy : y.dropWhile p = y) (hp : s <+: y) : s.dropWhile p = s := by
  cases s with
  | nil => rfl
  | cons c t =>
    obtain ⟨r, hr⟩ := hp
    subst hr
    rw [List.cons_append, List.dropWhile_cons] at hy
    rw [List.dropWhile_cons]
    by_cases hc : p c = true
    · exfalso
      rw [if_pos hc] at hy
      have hle : ((t ++ r).dropWhile p).length ≤ (t ++ r).length :=
        (List.dropWhile_sublist p).length_le
      rw [hy] at hle
      simp at hle
    · rw [if_neg hc]

theorem dropTrail_eq_rdropWhile (l : List Char) :
    dropTrail l = List.rdropWhile pyIsSpace l := rfl

theorem pyStripList_idem (l : List Char) :
    pyStripList (pyStripList l) = pyStripList l := by
  unfold pyStripList
  rw [dropTrail_eq_rdropWhile, dropTrail_eq_rdropWhile]
  have h1 : (l.dropWhile pyIsSpace).dropWhile pyIsSpace = l.dropWhile pyIsSpace :=
    List.dropWhile_idempotent _ _
  have h2 : (List.rdropWhile pyIsSpace (l.dropWhile pyIsSpace)).dropWhile pyIsSpace =
      List.rdropWhile pyIsSpace (l.dropWhile pyIsSpace) :=
    dropWhile_of_isPrefix _ h1 (List.rdropWhile_prefix _ _)
  rw [h2, List.rdropWhile_idempotent]

theorem pyStrip_mk (l : List Char) :
    pyStrip (String.mk l) = String.mk (pyStripList l) := rfl

theorem pyStrip_idem_mk (l : List Char) :
    pyStrip (String.mk (pyStripList l)) = String.mk (pyStripList l) := by
  rw [pyStrip_mk, pyStripList_idem]

theorem matchBody_stripped (r : List Char) (dn : String × String)
    (h : matchBody r = some dn) :
    pyStrip dn.1 = dn.1 ∧ pyStrip dn.2 = dn.2 := by
  simp only [matchBody] at h
  split at h
  · cases h
  · split at h
    · cases h
      exact ⟨pyStrip_idem_mk _, pyStrip_idem_mk _⟩
    · split at h
      · cases h
        exact ⟨rfl, pyStrip_idem_mk _⟩
      · cases h

theorem strictMatch_stripped (cs : List Char) (dn : String × String)
    (h : strictMatch cs = some dn) :
    pyStrip dn.1 = dn.1 ∧ pyStrip dn.2 = dn.2 := by
  simp only [strictMatch] at h
  split at h
  · split at h
    · split at h
      · exact matchBody_stripped _ _ h
      · cases h
    · cases h
  · cases h

theorem primLine_stripped (line : String) (it : TodoItem)
    (h : primLine line = some it) :
    pyStrip it.description = it.description ∧ pyStrip it.note = it.note ∧
    it.processed = false := by
  simp only [primLine] at h
  split at h
  · cases h
  · split at h
    · rename_i dn heq
      cases h
      have := strictMatch_stripped _ _ heq
      exact ⟨this.1, this.2, rfl⟩
    · cases h

/-! ## C7: the primary grammar pass -/

/-- Claim C7: whenever the primary grammar matches at least one line
(`parsePrimary raw ≠ []`), `parse_todo_list` returns exactly the items of
the matching lines in source line order — one item per matching line, the
non-matching lines silently skipped (the `filterMap` over the prepared
lines) — and every emitted description and note is whitespace-trimmed. -/
theorem C7_primary_grammar (raw : String) (h : parsePrimary raw ≠ []) :
    parse_todo_list raw = (cleanLines raw).filterMap primLine ∧
    ∀ it ∈ parse_todo_list raw,
      pyStrip it.description = it.description ∧ pyStrip it.note = it.note ∧
      it.processed = false := by
  have he : parse_todo_list raw = parsePrimary raw := by
    unfold parse_todo_list
    rw [if_neg h]
  refine ⟨he.trans (parsePrimary_eq_filterMap raw), ?_⟩
  intro it hit
  rw [he, parsePrimary_eq_filterMap raw] at hit
  obtain ⟨line, _, hsome⟩ := List.mem_filterMap.mp hit
  exact primLine_stripped line it hsome

/-- Witness for C7 on a two-line input whose first line matches the
primary grammar and whose second line does not. -/
theorem C7_witness :
    parse_todo_list "- [ ] a | b\nplain" =
      (cleanLines "- [ ] a | b\nplain").filterMap primLine ∧
    ∀ it ∈ parse_todo_list "- [ ] a | b\nplain",
      pyStrip it.description = it.description ∧ pyStrip it.note = it.note ∧
      it.processed = false :=
  C7_primary_grammar "- [ ] a | b\nplain" (by decide)

/-! ## C8: the fallback grammar pass -/

/-- Claim C8: the fallback grammar is engaged exactly when the primary
pass yields zero items; it turns every raw line containing the
task-reference keyword `查閱` and the opening quotation bracket `「` into
an item whose description is the whole stripped line and whose note is
empty (the shape of `fbLine`), and input matching neither grammar yields
the empty list rather than an error. -/
theorem C8_fallback_grammar (raw : String) :
    (parsePrimary raw = [] →
      parse_todo_list raw = (rawLines raw).filterMap fbLine) ∧
    (parsePrimary raw ≠ [] → parse_todo_list raw = parsePrimary raw) ∧
    (parsePrimary raw = [] → parseFallback raw = [] →
      parse_todo_list raw = []) := by
  refine ⟨?_, ?_, ?_⟩
  · intro h0
    unfold parse_todo_list
    rw [if_pos h0]
    exact parseFallback_eq_filterMap raw
  · intro h0
    unfold parse_todo_list
    rw [if_neg h0]
  · intro h0 hf
    unfold parse_todo_list
    rw [if_pos h0]
    exact hf

/-- Witness for C8 on a line containing the keyword and the bracket but
no primary-grammar separator (spec Scenario 2). -/
theorem C8_witness :
    parse_todo_list "請查閱「3.1入庫單維護」文件" =
      (rawLines "請查閱「3.1入庫單維護」文件").filterMap fbLine :=
  (C8_fallback_grammar "請查閱「3.1入庫單維護」文件").1 (by decide)

/-- Witness for C1 (amended) on the guarded trace "seed one item,
complete it once". -/
theorem C1_witness :
    (∀ m ∈ statesFrom TodoManager.init witOps, lenInv m ∧ cursorBound m) ∧
    cursorSteps TodoManager.init witOps :=
  C1_amended TodoManager.init witOps rfl (Nat.le_refl 0)
    (by
      refine ⟨fun _ => ?_, fun h => ?_, trivial⟩
      · simp [witOps, Op.isMarkDone] at *
      · simp [witOps, applyOp, TodoManager.set_todos, TodoManager.init])

/-! ## C9: empty-module sentinel rows in the document store -/

/-- Claim C9: for a record set consisting of exactly the sentinel row of
an empty module (`file_name`/`content`/`file_path` absent), listing the
files of that module returns the empty sequence — the sentinel row is
filtered out by the `file_name IS NOT NULL` condition, not returned and
not an error. -/
theorem C9_empty_module (mod : String) :
    get_files_by_module [⟨mod, none, none, none⟩] mod = [] := by
  simp [get_files_by_module, List.filterMap_cons, List.insertionSort]

/-! ## C6: shape of the ranking result -/

/-- Claim C6: every returned entry has a strictly positive score, the
result is sorted by score descending (on the position-annotated
candidates: descending score with ties in corpus order, the stable
order), the result has length at most `n` (the Python default being
`n = 10`), and the empty corpus yields the empty result rather than an
error. -/
theorem C6_ranking_result (docs : List (String × List String))
    (query : List String) (n : ℕ) :
    (∀ p ∈ bm25_search docs query n, 0 < p.2) ∧
    (bm25_search docs query n).Pairwise (fun p q => q.2 ≤ p.2) ∧
    (bm25Ranked docs query).Pairwise rankLE ∧
    (bm25_search docs query n).length ≤ n ∧
    (bm25_search docs query 10).length ≤ 10 ∧
    bm25_search [] query n = [] := by
  have hsorted : (bm25Ranked docs query).Pairwise rankLE :=
    List.sorted_insertionSort rankLE (bm25Candidates docs query)
  have hmem : ∀ p ∈ bm25_search docs query n, 0 < p.2 := by
    intro p hp
    unfold bm25_search at hp
    split at hp
    · cases hp
    · have hp' := (List.take_sublist n _).subset hp
      obtain ⟨e, he, rfl⟩ := List.mem_map.mp hp'
      have hec : e ∈ bm25Candidates docs query :=
        ((List.perm_insertionSort rankLE _).mem_iff).mp he
      have := (List.mem_filter.mp hec).2
      exact of_decide_eq_true this
  have hlen : ∀ k : ℕ, (bm25_search docs query k).length ≤ k := by
    intro k
    unfold bm25_search
    split
    · simp
    · calc (((bm25Ranked docs query).map (fun e => (e.2.1, e.2.2))).take k).length
          = min k ((bm25Ranked docs query).map (fun e => (e.2.1, e.2.2))).length := by
            rw [List.length_take]
        _ ≤ k := min_le_left _ _
  refine ⟨hmem, ?_, hsorted, hlen n, hlen 10, ?_⟩
  · unfold bm25_search
    split
    · exact List.Pairwise.nil
    · have hmap : (((bm25Ranked docs query).map (fun e => (e.2.1, e.2.2)))).Pairwise
          (fun p q : String × ℝ => q.2 ≤ p.2) := by
        refine List.Pairwise.map _ ?_ hsorted
        intro a b hab
        rcases hab with h | ⟨h, _⟩
        · exact le_of_lt h
        · exact le_of_eq h.symm
      exact hmap.sublist (List.take_sublist n _)
  · simp [bm25_search]

/-! ## C5: the inverse-document-frequency floor -/

/-- Claim C5, counterexample: in the two-document corpus `cexCorpus` the
term `"x"` occurs in both documents, so its raw idf is negative — yet its
effective weight is not `0.25` times the mean idf and is not strictly
positive: the library floor `0.25 * mean` is itself negative here (the
mean raw idf is negative), and the repository's re-floor multiplies by
`0.25` once more, leaving `0.0625 * mean < 0`. -/
theorem C5_counterexample :
    corpusRawIdf cexCorpus "x" < 0 ∧
    effIdf cexCorpus "x" ≠ 0.25 * averageIdf cexCorpus ∧
    ¬ 0 < effIdf cexCorpus "x" := by
  have hW : allWords cexCorpus = ["x"] := by decide
  have hdf : docFreq cexCorpus "x" = 2 := by decide
  have hlen : cexCorpus.length = 2 := rfl
  have hraw : corpusRawIdf cexCorpus "x" = rawIdf 2 2 := by
    unfold corpusRawIdf
    rw [hdf, hlen]
  have h22 : rawIdf 2 2 = Real.log (1 / 2) - Real.log (5 / 2) := by
    unfold rawIdf
    norm_num
  have hlog1 : Real.log (1 / 2 : ℝ) < 0 := Real.log_neg (by norm_num) (by norm_num)
  have hlog2 : 0 < Real.log (5 / 2 : ℝ) := Real.log_pos (by norm_num)
  have hrneg : corpusRawIdf cexCorpus "x" < 0 := by
    rw [hraw, h22]
    linarith
  have hAvg : averageIdf cexCorpus = corpusRawIdf cexCorpus "x" := by
    unfold averageIdf
    rw [hW]
    simp
  have hok : okapiIdf cexCorpus "x" = 0.25 * averageIdf cexCorpus := by
    unfold okapiIdf
    rw [if_pos hrneg]
  have hokneg : okapiIdf cexCorpus "x" < 0 := by
    rw [hok, hAvg]
    linarith
  have hdbAvg : dbAverageIdf cexCorpus = okapiIdf cexCorpus "x" := by
    unfold dbAverageIdf
    rw [hW]
    simp
  have heff : effIdf cexCorpus "x" = 0.25 * dbAverageIdf cexCorpus := by
    unfold effIdf
    rw [if_pos hokneg]
  have heffneg : effIdf cexCorpus "x" < 0 := by
    rw [heff, hdbAvg]
    linarith
  refine ⟨hrneg, ?_, not_lt.mpr (le_of_lt heffneg)⟩
  rw [heff, hdbAvg, hok, hAvg]
  intro hcontr
  have : corpusRawIdf cexCorpus "x" = 0 := by linarith
  linarith

/-- Claim C5 (amended): provided the mean raw inverse-document-frequency
of the corpus is positive, every term with negative raw idf gets the
effective weight `0.25 * mean raw idf` exactly (the library applies this
floor and the repository's re-floor then leaves it unchanged, the value
being positive), that effective weight is strictly positive, and it is
strictly greater than the raw negative value.  The proviso cannot be
dropped: the counterexample exhibits one corpus with non-positive mean
raw idf whose floored weight stays negative. -/
theorem C5_idf_floor (corpus : List (List String)) (w : String)
    (hmean : 0 < averageIdf corpus) (hneg : corpusRawIdf corpus w < 0) :
    effIdf corpus w = 0.25 * averageIdf corpus ∧
    0 < effIdf corpus w ∧
    corpusRawIdf corpus w < effIdf corpus w := by
  have hok : okapiIdf corpus w = 0.25 * averageIdf corpus := by
    unfold okapiIdf
    rw [if_pos hneg]
  have hpos : 0 < okapiIdf corpus w := by
    rw [hok]
    linarith
  have heff : effIdf corpus w = okapiIdf corpus w := by
    unfold effIdf
    rw [if_neg (not_lt.mpr (le_of_lt hpos))]
  exact ⟨heff.trans hok, heff ▸ hpos, lt_trans hneg (heff ▸ hpos)⟩

theorem witCorpus_allWords : allWords witCorpus = ["a", "b", "w", "c"] := by
  decide

theorem witCorpus_avg : averageIdf witCorpus =
    (rawIdf 3 1 + (rawIdf 3 1 + (rawIdf 3 2 + (rawIdf 3 1 + 0)))) / 4 := by
  have hda : docFreq witCorpus "a" = 1 := by decide
  have hdb : docFreq witCorpus "b" = 1 := by decide
  have hdw : docFreq witCorpus "w" = 2 := by decide
  have hdc : docFreq witCorpus "c" = 1 := by decide
  unfold averageIdf corpusRawIdf
  rw [witCorpus_allWords]
  have hlen : witCorpus.length = 3 := rfl
  simp only [List.map_cons, List.map_nil, List.sum_cons, List.sum_nil,
    hda, hdb, hdw, hdc, hlen]
  norm_num

theorem witCorpus_raw31 : rawIdf 3 1 = Real.log (5 / 2) - Real.log (3 / 2) := by
  unfold rawIdf
  norm_num

theorem witCorpus_raw32 : rawIdf 3 2 = Real.log (3 / 2) - Real.log (5 / 2) := by
  unfold rawIdf
  norm_num

theorem witCorpus_mean_pos : 0 < averageIdf witCorpus := by
  have hlog : Real.log (3 / 2 : ℝ) < Real.log (5 / 2 : ℝ) :=
    Real.log_lt_log (by norm_num) (by norm_num)
  rw [witCorpus_avg, witCorpus_raw31, witCorpus_raw32]
  linarith

theorem witCorpus_w_neg : corpusRawIdf witCorpus "w" < 0 := by
  have hdw : docFreq witCorpus "w" = 2 := by decide
  have hlog : Real.log (3 / 2 : ℝ) < Real.log (5 / 2 : ℝ) :=
    Real.log_lt_log (by norm_num) (by norm_num)
  have hlen : witCorpus.length = 3 := rfl
  have : corpusRawIdf witCorpus "w" = rawIdf 3 2 := by
    unfold corpusRawIdf
    rw [hdw, hlen]
  rw [this, witCorpus_raw32]
  linarith

/-- Witness for C5 (amended) on the three-document corpus `witCorpus`:
its mean raw idf is positive and the term `"w"` (present in two of the
three documents) has negative raw idf. -/
theorem C5_witness :
    effIdf witCorpus "w" = 0.25 * averageIdf witCorpus ∧
    0 < effIdf witCorpus "w" ∧
    corpusRawIdf witCorpus "w" < effIdf witCorpus "w" :=
  C5_idf_floor witCorpus "w" witCorpus_mean_pos witCorpus_w_neg
